import Mathlib

/-!
Verification of the object-storage (S3) subsystem of the djjs event-reporting
backend.  The Go source in app/services/s3_service.go and the branch-media
service are embedded shallowly: pure string/size utilities become Lean
functions, the module-level client globals become an explicit state record,
and every external AWS call becomes a field of an oracle record giving that
call's outcome.  fmt.Errorf error values are modelled as the formatted
strings.  The random value produced by uuid.New().String() is modelled as an
explicit input parameter of the upload function.
-/

namespace S3

/-! ## Generic string helpers mirroring the Go standard library -/

/-- Go strings whitespace predicate (unicode.IsSpace restricted to the
characters relevant here: ASCII spaces plus NEL and NBSP). -/
def isGoSpace (c : Char) : Bool :=
  c = ' ' || c = '\t' || c = '\n' || c = '\x0b' || c = '\x0c' || c = '\r' ||
  c = '\u0085' || c = ' '

/-- strings.TrimSpace on a character list. -/
def trimSpaceL (s : List Char) : List Char :=
  ((s.dropWhile isGoSpace).reverse.dropWhile isGoSpace).reverse

/-- strings.ToLower (ASCII; all content types in this code base are ASCII). -/
def toLowerL (s : List Char) : List Char :=
  s.map Char.toLower

/-- Index of the first occurrence of the pattern `sep` inside `s`
(strings.Index). `none` when `sep` does not occur. -/
def findSub (sep : List Char) : List Char → Option Nat
  | [] => if sep.isPrefixOf ([] : List Char) then some 0 else none
  | c :: t =>
    if sep.isPrefixOf (c :: t) then some 0
    else Option.map (· + 1) (findSub sep t)

/-- strings.Contains. -/
def containsSub (sep s : List Char) : Bool :=
  (findSub sep s).isSome

/-- Fuel-driven worker for strings.Split: each found separator occurrence
consumes at least one character, so any fuel above the input length yields
the untruncated splitting. -/
def splitOnFuel (sep : List Char) : Nat → List Char → List (List Char)
  | 0, s => [s]
  | fuel + 1, s =>
    match findSub sep s with
    | none => [s]
    | some i => s.take i :: splitOnFuel sep fuel (s.drop (i + sep.length))

/-- strings.Split (non-empty separator; Go would split per rune for an empty
separator, unused here). -/
def splitOnL (sep : List Char) (s : List Char) : List (List Char) :=
  if sep = [] then [s] else splitOnFuel sep (s.length + 1) s

/-- Hexadecimal digit test (ishex in net/url). -/
def isHexChar (c : Char) : Bool :=
  ('0' ≤ c && c ≤ '9') || ('a' ≤ c && c ≤ 'f') || ('A' ≤ c && c ≤ 'F')

/-- url.QueryUnescape modelled on character lists: decodes percent escapes
byte-wise and turns plus signs into spaces; malformed escapes are errors. -/
def queryUnescape : List Char → Except Unit (List Char)
  | [] => Except.ok []
  | c :: rest =>
    if c = '%' then
      match rest with
      | a :: b :: rest2 =>
        if isHexChar a && isHexChar b then
          (queryUnescape rest2).map
            (fun r => Char.ofNat (16 * a.toNat + b.toNat) :: r)
        else Except.error ()
      | _ => Except.error ()
    else if c = '+' then (queryUnescape rest).map (fun r => ' ' :: r)
    else (queryUnescape rest).map (fun r => c :: r)

/-- path/filepath.Ext: scan backwards from the end of the path, stopping at a
path separator; return the suffix starting at the last dot of the final
element, or the empty string. Worker on the reversed character list. -/
def extScan : List Char → List Char → Option (List Char)
  | [], _ => none
  | c :: rest, acc =>
    if c = '/' then none
    else if c = '.' then some (c :: acc)
    else extScan rest (c :: acc)

/-- filepath.Ext on strings. -/
def goExt (name : String) : String :=
  match extScan name.toList.reverse [] with
  | none => ""
  | some l => String.mk l

/-! ## Pure validators (app/services/s3_service.go) -/

/-- The fixed allow-list inside ValidateFileType. -/
def allowedTypes : List String :=
  ["image/jpeg", "image/jpg", "image/png", "image/gif", "image/webp",
   "image/bmp", "image/svg+xml",
   "video/mp4", "video/mpeg", "video/quicktime", "video/x-msvideo",
   "video/x-ms-wmv", "video/webm", "video/ogg", "video/x-matroska",
   "audio/mpeg", "audio/mp3", "audio/wav", "audio/ogg", "audio/webm",
   "audio/aac", "audio/x-m4a", "audio/flac", "audio/x-wav",
   "application/pdf",
   "application/msword",
   "application/vnd.openxmlformats-officedocument.wordprocessingml.document",
   "application/vnd.ms-excel",
   "application/vnd.openxmlformats-officedocument.spreadsheetml.sheet",
   "application/vnd.ms-powerpoint",
   "application/vnd.openxmlformats-officedocument.presentationml.presentation"]

/-- The normalisation shared by ValidateFileType and
GetFileTypeFromContentType: strings.ToLower(strings.Split(ct, ";")[0]) then
strings.TrimSpace. -/
def normalizeCT (ct : String) : String :=
  String.mk (trimSpaceL (toLowerL ((splitOnL [';'] ct.toList).headD [])))

/-- ValidateFileType: membership scan of the normalised content type over the
fixed allow-list. -/
def ValidateFileType (contentType : String) : Bool :=
  allowedTypes.any (fun allowed => normalizeCT contentType = allowed)

/-- Per-category byte ceiling chosen by ValidateFileSize. -/
def maxFileSize (fileType : String) : Int :=
  if fileType = "image" then 10 * 1024 * 1024
  else if fileType = "video" then 500 * 1024 * 1024
  else if fileType = "audio" then 50 * 1024 * 1024
  else if fileType = "file" then 100 * 1024 * 1024
  else 100 * 1024 * 1024

/-- The error text built by ValidateFileSize via fmt.Errorf. -/
def sizeErrMsg (mb : Int) : String :=
  "file size exceeds maximum allowed size of " ++ toString mb ++ " MB"

/-- ValidateFileSize: `none` means nil error, `some msg` the returned error. -/
def ValidateFileSize (size : Int) (fileType : String) : Option String :=
  let maxSize := maxFileSize fileType
  if size > maxSize then some (sizeErrMsg (maxSize / (1024 * 1024)))
  else none

/-- strings.HasPrefix on the character lists of the two strings. -/
def goHasPrefix (s p : String) : Bool :=
  p.toList.isPrefixOf s.toList

/-- GetFileTypeFromContentType: prefix classification of the normalised
content type (the pdf/word/... branch and the default both return "file"). -/
def GetFileTypeFromContentType (contentType : String) : String :=
  let ct := normalizeCT contentType
  if goHasPrefix ct "image/" then "image"
  else if goHasPrefix ct "video/" then "video"
  else if goHasPrefix ct "audio/" then "audio"
  else if containsSub "pdf".toList ct.toList ||
          containsSub "word".toList ct.toList ||
          containsSub "excel".toList ct.toList ||
          containsSub "powerpoint".toList ct.toList ||
          containsSub "spreadsheet".toList ct.toList ||
          containsSub "presentation".toList ct.toList then "file"
  else "file"

/-- GetFolderFromFileType: fixed lookup table. -/
def GetFolderFromFileType (fileType : String) : String :=
  if fileType = "image" then "images"
  else if fileType = "video" then "videos"
  else if fileType = "audio" then "audio"
  else if fileType = "file" then "files"
  else "files"

/-! ## The stateful S3 layer

The package-level globals S3Client / S3Uploader / S3BucketName / S3Region
become an explicit state record; a nil client pointer is `clientSet = false`.
Each AWS SDK call is an oracle field carrying that call's outcome, and the
value of uuid.New().String() is an explicit argument. -/

/-- The four environment variables read by InitializeS3. -/
structure Env where
  accessKeyID : String
  secretAccessKey : String
  bucketName : String
  region : String

/-- The credential record returned by cfg.Credentials.Retrieve. -/
structure Creds where
  accessKeyID : String
  source : String

/-- Outcomes of the external AWS SDK calls made by the service. -/
structure World where
  loadConfig : Except String Unit
  retrieve : Except String Creds
  headBucket : Except String Unit
  listObjects : Except String Unit
  presignProbe : Except String Unit
  putObject : Except String Unit
  deleteObject : Except String Unit
  headObject : Except String Unit
  presignGet : Except String String
  upload : Except String Unit

/-- The package-level mutable state of s3_service.go. -/
structure S3State where
  clientSet : Bool
  uploaderSet : Bool
  bucketName : String
  region : String

/-- The state before any initialization (all globals zero). -/
def initialState : S3State :=
  { clientSet := false, uploaderSet := false, bucketName := "", region := "" }

/-- The maskKey closure inside InitializeS3 (first 8 characters plus stars). -/
def maskKey (key : String) : String :=
  if key.length > 8 then key.take 8 ++ "***" else key ++ "***"

/-- VerifyS3Connection: four sequential probes; only the first four failures
are fatal, the cleanup DeleteObject failure is merely logged. -/
def VerifyS3Connection (w : World) (st : S3State) : Except String Unit :=
  if st.clientSet = false then Except.error "S3 client is not initialized"
  else
    match w.headBucket with
    | Except.error e =>
      Except.error ("cannot access bucket " ++ st.bucketName ++ ": " ++ e ++
        ". Check bucket name, region, and IAM permissions (s3:ListBucket)")
    | Except.ok _ =>
      match w.listObjects with
      | Except.error e =>
        Except.error ("cannot list objects in bucket " ++ st.bucketName ++ ": "
          ++ e ++ ". Check IAM permissions (s3:ListBucket)")
      | Except.ok _ =>
        match w.presignProbe with
        | Except.error e =>
          Except.error ("cannot generate presigned URLs: " ++ e ++
            ". Check IAM permissions (s3:GetObject)")
        | Except.ok _ =>
          match w.putObject with
          | Except.error e =>
            Except.error ("cannot upload to bucket " ++ st.bucketName ++ ": "
              ++ e ++ ". Check IAM permissions (s3:PutObject)")
          | Except.ok _ => Except.ok ()

/-- InitializeS3: env validation, config construction, credential
verification, then assignment of the global client state followed by the
bucket verification probes.  The returned state is the value of the globals
when the function returns. -/
def InitializeS3 (env : Env) (w : World) (st : S3State) :
    Except String Unit × S3State :=
  if env.accessKeyID = "" then
    (Except.error "AWS_ACCESS_KEY_ID environment variable is required", st)
  else if env.secretAccessKey = "" then
    (Except.error "AWS_SECRET_ACCESS_KEY environment variable is required", st)
  else if env.bucketName = "" then
    (Except.error "AWS_S3_BUCKET_NAME environment variable is required", st)
  else if env.region = "" then
    (Except.error "AWS_REGION environment variable is required", st)
  else
    match w.loadConfig with
    | Except.error e =>
      (Except.error ("failed to load AWS config: " ++ e), st)
    | Except.ok _ =>
      match w.retrieve with
      | Except.error e =>
        (Except.error ("failed to retrieve credentials: " ++ e), st)
      | Except.ok actualCreds =>
        if actualCreds.accessKeyID ≠ env.accessKeyID then
          (Except.error ("credentials mismatch: SDK is using " ++
            maskKey actualCreds.accessKeyID ++ " instead of " ++
            maskKey env.accessKeyID ++ " from .env"), st)
        else
          -- (Non-AKIA access keys only produce log warnings here.)
          let stInit : S3State :=
            { clientSet := true, uploaderSet := true,
              bucketName := env.bucketName, region := env.region }
          match VerifyS3Connection w stInit with
          | Except.error e =>
            (Except.error ("S3 bucket verification failed: " ++ e), stInit)
          | Except.ok _ => (Except.ok (), stInit)

/-- The result record of UploadFile. -/
structure UploadResult where
  S3Key : String
  OriginalFilename : String
deriving DecidableEq

/-- The key composed inside UploadFile: fmt.Sprintf of folder, uuid and
filepath.Ext(fileName). -/
def uploadKey (folder uuidStr fileName : String) : String :=
  folder ++ "/" ++ uuidStr ++ goExt fileName

/-- UploadFile: lazy initialization guarded by the nil check, key
composition from the fresh uuid, then the managed upload. -/
def UploadFile (env : Env) (w : World) (st : S3State)
    (fileName _contentType folder uuidStr : String) :
    Except String UploadResult × S3State :=
  let initRes : Except String Unit × S3State :=
    if st.clientSet then (Except.ok (), st) else InitializeS3 env w st
  match initRes with
  | (Except.error e, st1) =>
    (Except.error ("failed to initialize S3: " ++ e), st1)
  | (Except.ok _, st1) =>
    let s3Key := uploadKey folder uuidStr fileName
    match w.upload with
    | Except.error e =>
      (Except.error ("S3 upload failed (bucket: " ++ st1.bucketName ++
        ", key: " ++ s3Key ++ "): " ++ e), st1)
    | Except.ok _ =>
      (Except.ok { S3Key := s3Key, OriginalFilename := fileName }, st1)

/-- The legacy URL format composed by UploadFileLegacy. -/
def legacyURL (bucket region key : String) : String :=
  "https://" ++ bucket ++ ".s3." ++ region ++ ".amazonaws.com/" ++ key

/-- UploadFileLegacy: delegates to UploadFile and rebuilds the public URL. -/
def UploadFileLegacy (env : Env) (w : World) (st : S3State)
    (fileName contentType folder uuidStr : String) :
    Except String String × S3State :=
  match UploadFile env w st fileName contentType folder uuidStr with
  | (Except.error e, st1) => (Except.error e, st1)
  | (Except.ok result, st1) =>
    (Except.ok (legacyURL st1.bucketName st1.region result.S3Key), st1)

/-- GetPresignedURL: lazy initialization, empty-key validation, an existence
probe whose outcome is discarded, then the presign call. -/
def GetPresignedURL (env : Env) (w : World) (st : S3State)
    (s3Key : String) (_expiration : Nat) :
    Except String String × S3State :=
  let initRes : Except String Unit × S3State :=
    if st.clientSet then (Except.ok (), st) else InitializeS3 env w st
  match initRes with
  | (Except.error e, st1) =>
    (Except.error ("failed to initialize S3: " ++ e), st1)
  | (Except.ok _, st1) =>
    if s3Key = "" then (Except.error "S3 key cannot be empty", st1)
    else
      -- HeadObject probe: the error branch of the source is empty.
      let _headProbe := w.headObject
      match w.presignGet with
      | Except.error e =>
        (Except.error ("failed to generate presigned URL (bucket: " ++
          st1.bucketName ++ ", key: " ++ s3Key ++ "): " ++ e ++
          ". Check AWS IAM permissions for s3:GetObject"), st1)
      | Except.ok url => (Except.ok url, st1)

/-- The separator the URL-to-key extraction splits on. -/
def amazonSep : List Char := ".amazonaws.com/".toList

/-- The query-string strip at the top of GetS3KeyFromURL: everything after
the first question mark is removed. -/
def stripQuery (u0 : List Char) : List Char :=
  if containsSub ['?'] u0 then (splitOnL ['?'] u0).headD [] else u0

/-- The extraction body of GetS3KeyFromURL run on the stripped URL: split on
".amazonaws.com/", falling back to the path-style "/bucket/" format;
unmatched URLs give "". -/
def extractKey (bucket : String) (u1 : List Char) : String :=
  let parts := splitOnL amazonSep u1
  if parts.length > 1 then
    let key := parts.getD 1 []
    match queryUnescape key with
    | Except.ok decodedKey => String.mk decodedKey
    | Except.error _ => String.mk key
  else
    let bucketSep := '/' :: bucket.toList ++ ['/']
    if containsSub bucketSep u1 then
      let parts2 := splitOnL bucketSep u1
      if parts2.length > 1 then
        let key := parts2.getD 1 []
        match queryUnescape key with
        | Except.ok decodedKey => String.mk decodedKey
        | Except.error _ => String.mk key
      else ""
    else ""

/-- GetS3KeyFromURL: strip the query string, then extract the key.  The
package-global S3BucketName is the bucket argument. -/
def GetS3KeyFromURL (bucket : String) (s3URL : String) : String :=
  extractKey bucket (stripQuery s3URL.toList)

/-! ## Branch-media batch conversion (branch media service) -/

/-- The BranchMedia record, restricted to the fields the conversion reads or
writes: the database identifiers, the stored S3 key, and the two URL
fields. -/
structure BranchMedia where
  ID : Nat
  BranchID : Nat
  S3Key : String
  FileURL : String
  URL : String
deriving DecidableEq

/-- ConvertBranchMediaToPresignedURLs: per-item best-effort conversion.
`sign` is the outcome of GetPresignedURL for a given key.  Items with an
empty key, a failed signing call, or a produced URL that carries neither
"X-Amz-Signature" nor "Signature=" are skipped; all other items get the
presigned URL stored in both URL fields.  The Go function's error result is
always nil, so the model returns just the list. -/
def ConvertBranchMediaToPresignedURLs
    (sign : String → Except String String) :
    List BranchMedia → List BranchMedia
  | [] => []
  | media :: rest =>
    if media.S3Key = "" then ConvertBranchMediaToPresignedURLs sign rest
    else
      match sign media.S3Key with
      | Except.error _ => ConvertBranchMediaToPresignedURLs sign rest
      | Except.ok presignedURL =>
        if !containsSub "X-Amz-Signature".toList presignedURL.toList &&
           !containsSub "Signature=".toList presignedURL.toList then
          ConvertBranchMediaToPresignedURLs sign rest
        else
          { media with FileURL := presignedURL, URL := presignedURL } ::
            ConvertBranchMediaToPresignedURLs sign rest

/-! ## Concrete fixtures used by witnesses and counterexamples -/

/-- A valid environment with matching long-lived credentials. -/
def exampleEnv : Env :=
  { accessKeyID := "AKIAEXAMPLEKEY123", secretAccessKey := "secret",
    bucketName := "djjs-bucket", region := "ap-south-1" }

/-- The credential record the SDK resolves for exampleEnv. -/
def exampleCreds : Creds :=
  { accessKeyID := "AKIAEXAMPLEKEY123", source := "StaticCredentials" }

/-- A world where every external call succeeds. -/
def okWorld : World :=
  { loadConfig := Except.ok (), retrieve := Except.ok exampleCreds,
    headBucket := Except.ok (), listObjects := Except.ok (),
    presignProbe := Except.ok (), putObject := Except.ok (),
    deleteObject := Except.ok (), headObject := Except.ok (),
    presignGet := Except.ok
      "https://djjs-bucket.s3.ap-south-1.amazonaws.com/k?X-Amz-Signature=abc",
    upload := Except.ok () }

/-- okWorld with the write-permission probe (PutObject) failing. -/
def putFailWorld : World := { okWorld with putObject := Except.error "denied" }

/-- The state after a successful initialization from exampleEnv. -/
def readyState : S3State :=
  { clientSet := true, uploaderSet := true,
    bucketName := "djjs-bucket", region := "ap-south-1" }

/-- A fixed 36-character uuid string standing for one random draw. -/
def uuidC : String := "00000000-0000-0000-0000-000000000000"

/-- A second, different 36-character uuid draw. -/
def uuidC2 : String := "11111111-1111-1111-1111-111111111111"

/-- A signing outcome that produces a signature-bearing URL for any key. -/
def exampleSign (key : String) : Except String String :=
  Except.ok ("https://djjs-bucket.s3.ap-south-1.amazonaws.com/" ++ key ++
    "?X-Amz-Signature=sig")

/-- A world whose resolved credential differs from the configured one. -/
def mismatchWorld : World :=
  { okWorld with retrieve := Except.ok ⟨"AKIAOTHERKEY99", "EnvProvider"⟩ }

/-- An environment explicitly configured with a temporary (ASIA) key. -/
def asiaEnv : Env := { exampleEnv with accessKeyID := "ASIATEMPKEY1234" }

/-- A world resolving exactly that temporary key. -/
def asiaWorld : World :=
  { okWorld with retrieve := Except.ok ⟨"ASIATEMPKEY1234", "StaticCredentials"⟩ }

/-- A world where the existence probe (HeadObject) fails but signing
succeeds. -/
def headFailWorld : World :=
  { okWorld with headObject := Except.error "NotFound" }

/-! ## Extension lemmas for filepath.Ext -/

/-- The last path element of a file name (the part after the final slash). -/
def lastPathElem (name : String) : String :=
  String.mk ((name.toList.reverse.takeWhile (fun c => c != '/')).reverse)

/-- The scheme-and-slashes head of a virtual-hosted S3 URL. -/
def httpsChars : List Char := "https://".toList

/-- The ".s3." infix between bucket and region. -/
def dotS3 : List Char := ".s3.".toList

/-- The key shape the specification asserts for every upload:
folder slash a 36-character random identifier, a dot, then an extension. -/
def keyShape (folder key : String) : Prop :=
  ∃ u e : String, u.length = 36 ∧ key = folder ++ "/" ++ u ++ "." ++ e

lemma findSub_some_lt {sep : List Char} (hsep : sep ≠ []) :
    ∀ {s : List Char} {i : Nat}, findSub sep s = some i → i < s.length := by
  intro s
  induction s with
  | nil =>
    intro i h
    simp only [findSub] at h
    rw [if_neg (by simpa using hsep)] at h
    exact absurd h (by simp)
  | cons c t ih =>
    intro i h
    simp only [findSub] at h
    by_cases hp : sep.isPrefixOf (c :: t)
    · rw [if_pos hp] at h
      cases h
      simp
    · rw [if_neg hp] at h
      cases hfd : findSub sep t with
      | none => rw [hfd] at h; simp at h
      | some j =>
        rw [hfd] at h
        simp only [Option.map_some'] at h
        cases h
        have := ih hfd
        simp only [List.length_cons]
        omega

lemma splitOnFuel_succ_none {sep s : List Char} (fuel : Nat)
    (h : findSub sep s = none) : splitOnFuel sep (fuel + 1) s = [s] := by
  simp only [splitOnFuel, h]

lemma splitOnFuel_succ_some {sep s : List Char} {i : Nat} (fuel : Nat)
    (h : findSub sep s = some i) :
    splitOnFuel sep (fuel + 1) s =
      s.take i :: splitOnFuel sep fuel (s.drop (i + sep.length)) := by
  simp only [splitOnFuel, h]

lemma sep_length_pos {sep : List Char} (hsep : sep ≠ []) : 1 ≤ sep.length := by
  cases sep with
  | nil => exact absurd rfl hsep
  | cons a b => simp

lemma splitOnFuel_adequate (sep : List Char) (hsep : sep ≠ []) :
    ∀ fuel1 fuel2 s, s.length < fuel1 → s.length < fuel2 →
      splitOnFuel sep fuel1 s = splitOnFuel sep fuel2 s := by
  intro fuel1
  induction fuel1 with
  | zero => intro fuel2 s h1 h2; omega
  | succ f1 ih =>
    intro fuel2 s h1 h2
    cases fuel2 with
    | zero => omega
    | succ f2 =>
      cases hfd : findSub sep s with
      | none => rw [splitOnFuel_succ_none f1 hfd, splitOnFuel_succ_none f2 hfd]
      | some i =>
        have hi : i < s.length := findSub_some_lt hsep hfd
        have hlen : 1 ≤ sep.length := sep_length_pos hsep
        have hdrop : (s.drop (i + sep.length)).length < s.length := by
          simp only [List.length_drop]
          omega
        rw [splitOnFuel_succ_some f1 hfd, splitOnFuel_succ_some f2 hfd,
          ih f2 (s.drop (i + sep.length)) (by omega) (by omega)]

lemma splitOnL_of_none {sep s : List Char} (hsep : sep ≠ [])
    (h : findSub sep s = none) : splitOnL sep s = [s] := by
  simp only [splitOnL, if_neg hsep]
  exact splitOnFuel_succ_none s.length h

lemma splitOnL_of_some {sep s : List Char} {i : Nat} (hsep : sep ≠ [])
    (h : findSub sep s = some i) :
    splitOnL sep s = s.take i :: splitOnL sep (s.drop (i + sep.length)) := by
  have hi : i < s.length := findSub_some_lt hsep h
  have hlen : 1 ≤ sep.length := sep_length_pos hsep
  have hdrop : (s.drop (i + sep.length)).length < s.length := by
    simp only [List.length_drop]
    omega
  simp only [splitOnL, if_neg hsep]
  rw [splitOnFuel_succ_some s.length h,
    splitOnFuel_adequate sep hsep s.length ((s.drop (i + sep.length)).length + 1)
      (s.drop (i + sep.length)) (by omega) (by omega)]

lemma extScan_some_shape :
    ∀ (rev acc l : List Char), extScan rev acc = some l → ∃ t, l = '.' :: t := by
  intro rev
  induction rev with
  | nil => intro acc l h; simp [extScan] at h
  | cons c rest ih =>
    intro acc l h
    simp only [extScan] at h
    by_cases h1 : c = '/'
    · rw [if_pos h1] at h
      exact absurd h (by simp)
    · rw [if_neg h1] at h
      by_cases h2 : c = '.'
      · rw [if_pos h2] at h
        refine ⟨acc, ?_⟩
        have := Option.some.inj h
        rw [← this, h2]
      · rw [if_neg h2] at h
        exact ih _ _ h

lemma extScan_none_iff :
    ∀ (rev acc : List Char),
      extScan rev acc = none ↔ '.' ∉ rev.takeWhile (fun c => c != '/') := by
  intro rev
  induction rev with
  | nil => intro acc; simp [extScan]
  | cons c rest ih =>
    intro acc
    by_cases h1 : c = '/'
    · subst h1
      simp [extScan, List.takeWhile_cons]
    · by_cases h2 : c = '.'
      · subst h2
        simp [extScan, List.takeWhile_cons, h1]
      · simp only [extScan, if_neg h1, if_neg h2, List.takeWhile_cons]
        have hc : (c != '/') = true := by simp [h1]
        rw [hc]
        simp only [if_true, List.mem_cons, not_or]
        rw [ih (c :: acc)]
        constructor
        · intro h
          exact ⟨fun hdc => h2 hdc.symm, h⟩
        · intro h
          exact h.2

lemma goExt_eq_empty_iff (name : String) :
    goExt name = "" ↔ '.' ∉ (lastPathElem name).toList := by
  have hmem : '.' ∈ (lastPathElem name).toList ↔
      '.' ∈ name.toList.reverse.takeWhile (fun c => c != '/') := by
    simp [lastPathElem]
  rw [hmem]
  unfold goExt
  cases h : extScan name.toList.reverse [] with
  | none =>
    simp only [eq_self_iff_true, true_iff]
    exact (extScan_none_iff name.toList.reverse []).mp h
  | some l =>
    obtain ⟨t, rfl⟩ := extScan_some_shape _ _ _ h
    have hne : extScan name.toList.reverse [] ≠ none := by
      rw [h]
      simp
    have hdot : '.' ∈ name.toList.reverse.takeWhile (fun c => c != '/') := by
      by_contra hc
      exact hne ((extScan_none_iff name.toList.reverse []).mpr hc)
    constructor
    · intro habs
      have := congrArg String.data habs
      simp at this
    · intro habs
      exact absurd hdot habs

lemma goExt_shape (name : String) (h : goExt name ≠ "") :
    ∃ r : String, goExt name = "." ++ r := by
  unfold goExt at h ⊢
  cases hs : extScan name.toList.reverse [] with
  | none => rw [hs] at h; exact absurd rfl h
  | some l =>
    obtain ⟨t, rfl⟩ := extScan_some_shape _ _ _ hs
    exact ⟨String.mk t, rfl⟩

/-! ## Lemmas for the URL-to-key extraction -/

lemma mem_of_getElemQ {l : List Char} {c : Char} {i : Nat}
    (h : l[i]? = some c) : c ∈ l := by
  obtain ⟨hlt, hg⟩ := List.getElem?_eq_some.mp h
  exact hg ▸ List.getElem_mem hlt

lemma queryUnescape_id :
    ∀ s : List Char, '%' ∉ s → '+' ∉ s → queryUnescape s = Except.ok s := by
  intro s
  induction s with
  | nil => intro _ _; rfl
  | cons c rest ih =>
    intro hp hpl
    have hc1 : c ≠ '%' := fun h => hp (h ▸ List.mem_cons_self c rest)
    have hc2 : c ≠ '+' := fun h => hpl (h ▸ List.mem_cons_self c rest)
    have hrest1 : '%' ∉ rest := fun h => hp (List.mem_cons_of_mem c h)
    have hrest2 : '+' ∉ rest := fun h => hpl (List.mem_cons_of_mem c h)
    have hrec := ih hrest1 hrest2
    rcases rest with _ | ⟨a, _ | ⟨b, rest2⟩⟩ <;>
      (rw [queryUnescape]
       rw [if_neg hc1, if_neg hc2, hrec]
       rfl
       all_goals intro x y r2 hh
       all_goals simp at hh)

lemma isPrefixOf_getElemQ {p s : List Char} (h : p.isPrefixOf s)
    {i : Nat} (hi : i < p.length) : s[i]? = p[i]? := by
  obtain ⟨t, rfl⟩ := List.isPrefixOf_iff_prefix.mp h
  rw [List.getElem?_append]
  simp [hi]

lemma findSub_map_add {sep x y : List Char}
    (h : ∀ j, j < x.length → ¬ sep.isPrefixOf ((x ++ y).drop j)) :
    findSub sep (x ++ y) = Option.map (· + x.length) (findSub sep y) := by
  induction x with
  | nil =>
    simp only [List.nil_append, List.length_nil]
    cases findSub sep y <;> simp
  | cons c t ih =>
    have h0 : ¬ sep.isPrefixOf (c :: (t ++ y)) := by
      have := h 0 (by simp)
      simpa using this
    have hrec := ih (fun j hj => by
      have := h (j + 1) (by simp only [List.length_cons]; omega)
      simpa using this)
    show findSub sep (c :: (t ++ y)) = _
    simp only [findSub, if_neg h0, hrec]
    cases findSub sep y with
    | none => rfl
    | some k =>
      simp only [Option.map_some', List.length_cons]
      try congr 1
      try omega

lemma findSub_self_append {sep b : List Char} (hsep : sep ≠ []) :
    findSub sep (sep ++ b) = some 0 := by
  have hpre : sep.isPrefixOf (sep ++ b) :=
    List.isPrefixOf_iff_prefix.mpr (List.prefix_append sep b)
  cases hs : sep ++ b with
  | nil =>
    exfalso
    cases sep with
    | nil => exact hsep rfl
    | cons a t => simp at hs
  | cons c t =>
    rw [← hs]
    rw [hs] at hpre ⊢
    simp only [findSub, if_pos hpre]

lemma findSub_single_none {c : Char} {s : List Char} (h : c ∉ s) :
    findSub [c] s = none := by
  induction s with
  | nil => rfl
  | cons a t ih =>
    have ha : a ≠ c := fun hh => h (hh ▸ List.mem_cons_self a t)
    have ht : c ∉ t := fun hh => h (List.mem_cons_of_mem a hh)
    have hp : ¬ ([c].isPrefixOf (a :: t)) := by
      simp [List.isPrefixOf]
      intro hc
      exact absurd hc.symm ha
    simp only [findSub, if_neg hp, ih ht]
    rfl

lemma containsSub_single_false {c : Char} {s : List Char} (h : c ∉ s) :
    containsSub [c] s = false := by
  simp [containsSub, findSub_single_none h]

lemma findSub_none_of_contains_false {sep s : List Char}
    (h : containsSub sep s = false) : findSub sep s = none := by
  cases hf : findSub sep s with
  | none => rfl
  | some i =>
    exfalso
    simp [containsSub, hf] at h

lemma url_slash_pos (bucket region key : List Char)
    (hb : '/' ∉ bucket) (hr : '/' ∉ region) :
    ∀ m, m < (httpsChars ++ bucket ++ dotS3 ++ region).length + 14 →
      ((httpsChars ++ bucket ++ dotS3 ++ region) ++
        (amazonSep ++ key))[m]? = some '/' →
      m = 6 ∨ m = 7 := by
  intro m hm hget
  have h8 : httpsChars.length = 8 := by decide
  have h4 : dotS3.length = 4 := by decide
  have h15 : amazonSep.length = 15 := by decide
  have hhttps : ∀ n, n < 8 → httpsChars[n]? = some '/' → n = 6 ∨ n = 7 := by
    decide
  have hdot : ∀ n, n < 4 → ¬ (dotS3[n]? = some '/') := by decide
  have hsep : ∀ n, n < 14 → ¬ (amazonSep[n]? = some '/') := by decide
  simp only [List.getElem?_append] at hget
  simp only [List.length_append, h8, h4, h15] at hget hm
  split_ifs at hget with c1 c2 c3 c4 c5
  · exact hhttps m (by omega) hget
  · exact absurd (mem_of_getElemQ hget) hb
  · exact absurd hget (hdot _ (by omega))
  · exact absurd (mem_of_getElemQ hget) hr
  · exact absurd hget (hsep _ (by omega))
  · omega

lemma url_no_early_sep (bucket region key : List Char)
    (hb : '/' ∉ bucket) (hr : '/' ∉ region) :
    ∀ j, j < (httpsChars ++ bucket ++ dotS3 ++ region).length →
      ¬ amazonSep.isPrefixOf
        (((httpsChars ++ bucket ++ dotS3 ++ region) ++
          (amazonSep ++ key)).drop j) := by
  intro j hj hpre
  have h14 : (14 : Nat) < amazonSep.length := by decide
  have hg := isPrefixOf_getElemQ hpre h14
  rw [List.getElem?_drop] at hg
  have hv : amazonSep[(14 : Nat)]? = some '/' := by decide
  rw [hv] at hg
  have := url_slash_pos bucket region key hb hr (j + 14) (by omega) hg
  omega

lemma url_findSub (bucket region key : List Char)
    (hb : '/' ∉ bucket) (hr : '/' ∉ region) :
    findSub amazonSep
      ((httpsChars ++ bucket ++ dotS3 ++ region) ++ (amazonSep ++ key)) =
      some (httpsChars ++ bucket ++ dotS3 ++ region).length := by
  rw [findSub_map_add (url_no_early_sep bucket region key hb hr)]
  rw [findSub_self_append (by decide)]
  simp

/-- The character list of the legacy URL, decomposed at the separator. -/
lemma legacy_toList (b r k : String) :
    (legacyURL b r k).toList =
      (httpsChars ++ b.toList ++ dotS3 ++ r.toList) ++
        (amazonSep ++ k.toList) := by
  simp only [legacyURL, httpsChars, dotS3, amazonSep, String.toList,
    String.data_append, List.append_assoc]

lemma stripQuery_of_no_q {u : List Char} (h : '?' ∉ u) : stripQuery u = u := by
  simp [stripQuery, containsSub_single_false h]

lemma stripQuery_append_q {x q : List Char} (hx : '?' ∉ x) :
    stripQuery (x ++ '?' :: q) = x := by
  have hfind : findSub ['?'] (x ++ '?' :: q) = some x.length := by
    have hshift := @findSub_map_add ['?'] x ('?' :: q)
      (fun j hj hpre => by
        have h0 : (0 : Nat) < ([( '?' )] : List Char).length := by decide
        have hg := isPrefixOf_getElemQ hpre h0
        rw [List.getElem?_drop] at hg
        rw [List.getElem?_append] at hg
        rw [if_pos (by omega)] at hg
        have : ('?' : Char) ∈ x := by
          apply mem_of_getElemQ
          rw [hg]
          rfl
        exact hx this)
    have hzero : findSub ['?'] ('?' :: q) = some 0 := by
      have := @findSub_self_append ['?'] q (by decide)
      simpa using this
    rw [hshift, hzero]
    simp
  have hcontains : containsSub ['?'] (x ++ '?' :: q) = true := by
    simp [containsSub, hfind]
  simp only [stripQuery, hcontains, if_true]
  rw [splitOnL_of_some (by decide) hfind]
  simp only [List.headD_cons]
  exact List.take_left x ('?' :: q)

lemma extractKey_legacy (bucket region key : String)
    (hb : '/' ∉ bucket.toList) (hr : '/' ∉ region.toList)
    (hk1 : '%' ∉ key.toList) (hk2 : '+' ∉ key.toList)
    (hksep : containsSub amazonSep key.toList = false) :
    extractKey bucket
      ((httpsChars ++ bucket.toList ++ dotS3 ++ region.toList) ++
        (amazonSep ++ key.toList)) = key := by
  have hsepne : amazonSep ≠ [] := by decide
  have hfind := url_findSub bucket.toList region.toList key.toList hb hr
  have htake :
      ((httpsChars ++ bucket.toList ++ dotS3 ++ region.toList) ++
        (amazonSep ++ key.toList)).take
          (httpsChars ++ bucket.toList ++ dotS3 ++ region.toList).length =
        httpsChars ++ bucket.toList ++ dotS3 ++ region.toList :=
    List.take_left _ _
  have hdrop :
      ((httpsChars ++ bucket.toList ++ dotS3 ++ region.toList) ++
        (amazonSep ++ key.toList)).drop
          ((httpsChars ++ bucket.toList ++ dotS3 ++ region.toList).length +
            amazonSep.length) = key.toList := by
    rw [← List.append_assoc]
    rw [show (httpsChars ++ bucket.toList ++ dotS3 ++ region.toList).length +
        amazonSep.length =
        ((httpsChars ++ bucket.toList ++ dotS3 ++ region.toList) ++
          amazonSep).length from (List.length_append _ _).symm]
    exact List.drop_left _ _
  have hkfind : findSub amazonSep key.toList = none :=
    findSub_none_of_contains_false hksep
  simp only [extractKey]
  rw [splitOnL_of_some hsepne hfind, htake, hdrop,
    splitOnL_of_none hsepne hkfind]
  rw [if_pos (by simp)]
  simp only [List.getD_cons_succ, List.getD_cons_zero]
  rw [queryUnescape_id key.toList hk1 hk2]
  rfl

/-! ## Theorems -/

/-- C4: ValidateFileSize accepts exactly the sizes at most the fixed
per-category ceiling (image 10 MB, video 500 MB, audio 50 MB,
document/default 100 MB, in bytes), returns the FileTooLargeError message for
every size strictly above the ceiling (hence for ceiling+1), and the MB
figure in the message is the byte ceiling divided by 1024*1024, namely 10,
500, 50 and 100. -/
theorem validateFileSize_spec :
    ∀ (size : Int) (fileType : String),
      (ValidateFileSize size fileType = none ↔ size ≤ maxFileSize fileType) ∧
      (size > maxFileSize fileType →
        ValidateFileSize size fileType =
          some (sizeErrMsg (maxFileSize fileType / (1024 * 1024)))) ∧
      maxFileSize "image" = 10 * 1024 * 1024 ∧
      maxFileSize "video" = 500 * 1024 * 1024 ∧
      maxFileSize "audio" = 50 * 1024 * 1024 ∧
      maxFileSize "file" = 100 * 1024 * 1024 ∧
      maxFileSize "document" = 100 * 1024 * 1024 ∧
      sizeErrMsg (maxFileSize "image" / (1024 * 1024)) =
        "file size exceeds maximum allowed size of 10 MB" ∧
      sizeErrMsg (maxFileSize "video" / (1024 * 1024)) =
        "file size exceeds maximum allowed size of 500 MB" ∧
      sizeErrMsg (maxFileSize "audio" / (1024 * 1024)) =
        "file size exceeds maximum allowed size of 50 MB" ∧
      sizeErrMsg (maxFileSize "document" / (1024 * 1024)) =
        "file size exceeds maximum allowed size of 100 MB" := by
  intro size fileType
  refine ⟨?_, ?_, by decide, by decide, by decide, by decide, by decide,
    by decide, by decide, by decide, by decide⟩
  · by_cases h : size > maxFileSize fileType
    · simp [ValidateFileSize, h]
      try omega
    · simp [ValidateFileSize, h]
      try omega
  · intro h
    simp [ValidateFileSize, h]

/-- C4 witness: an image of 10*1024*1024+1 bytes is strictly above the image
ceiling and is rejected with the 10 MB message. -/
theorem validateFileSize_spec_witness :
    (10 * 1024 * 1024 + 1 : Int) > maxFileSize "image" ∧
    ValidateFileSize (10 * 1024 * 1024 + 1) "image" =
      some (sizeErrMsg (maxFileSize "image" / (1024 * 1024))) :=
  ⟨by decide, (validateFileSize_spec (10 * 1024 * 1024 + 1) "image").2.1
    (by decide)⟩

/-- C5: ValidateFileType returns true exactly when the content type, after
stripping parameters following a semicolon, lowercasing and trimming
whitespace, is an exact member of the fixed allow-list; in particular
"image/jpeg" is accepted and "application/zip" is rejected. -/
theorem validateFileType_spec :
    (∀ ct : String, ValidateFileType ct = true ↔ normalizeCT ct ∈ allowedTypes) ∧
    ValidateFileType "image/jpeg" = true ∧
    ValidateFileType "application/zip" = false := by
  refine ⟨fun ct => ?_, by decide, by decide⟩
  simp only [ValidateFileType, List.any_eq_true, decide_eq_true_eq]
  constructor
  · rintro ⟨a, ha, rfl⟩
    exact ha
  · intro h
    exact ⟨_, h, rfl⟩

/-- C6: GetFileTypeFromContentType classifies by MIME prefix, with the
document/file value as catch-all for every non image/video/audio type, and
GetFolderFromFileType is the fixed table with "files" as default; in
particular "video/mp4" classifies as "video" and the "video" folder is
"videos", while "application/x-foo" falls to "file". -/
theorem classifyAndFolder_spec :
    (∀ ct : String, GetFileTypeFromContentType ct =
      (if goHasPrefix (normalizeCT ct) "image/" then "image"
       else if goHasPrefix (normalizeCT ct) "video/" then "video"
       else if goHasPrefix (normalizeCT ct) "audio/" then "audio"
       else "file")) ∧
    GetFolderFromFileType "image" = "images" ∧
    GetFolderFromFileType "video" = "videos" ∧
    GetFolderFromFileType "audio" = "audio" ∧
    GetFolderFromFileType "file" = "files" ∧
    (∀ s : String,
      s ∉ (["image", "video", "audio", "file"] : List String) →
      GetFolderFromFileType s = "files") ∧
    GetFileTypeFromContentType "video/mp4" = "video" ∧
    GetFolderFromFileType "video" = "videos" ∧
    GetFileTypeFromContentType "application/x-foo" = "file" := by
  refine ⟨fun ct => ?_, by decide, by decide, by decide, by decide,
    fun s hs => ?_, by decide, by decide, by decide⟩
  · simp only [GetFileTypeFromContentType, ite_self]
  · simp only [List.mem_cons, List.mem_singleton, not_or] at hs
    obtain ⟨h1, h2, h3, h4⟩ := hs
    simp [GetFolderFromFileType, h1, h2, h3, h4]

/-- C6 witness: instantiating the default-folder clause at "document". -/
theorem classifyAndFolder_spec_witness :
    GetFolderFromFileType "document" = "files" :=
  classifyAndFolder_spec.2.2.2.2.2.1 "document" (by decide)

/-- C10: a successful UploadFile always produces the key folder + "/" + uuid
+ filepath.Ext(fileName) verbatim (extension with its leading dot), and when
the last path element of the filename contains no dot the extension is empty,
so the key is exactly folder + "/" + uuid with nothing appended. -/
theorem uploadFile_key_verbatim :
    (∀ env w st fileName contentType folder uuidStr,
      st.clientSet = true → w.upload = Except.ok () →
      UploadFile env w st fileName contentType folder uuidStr =
        (Except.ok { S3Key := folder ++ "/" ++ uuidStr ++ goExt fileName,
                     OriginalFilename := fileName }, st)) ∧
    (∀ fileName : String, '.' ∉ (lastPathElem fileName).toList →
      goExt fileName = "") ∧
    (∀ folder uuidStr fileName, '.' ∉ (lastPathElem fileName).toList →
      uploadKey folder uuidStr fileName = folder ++ "/" ++ uuidStr) := by
  refine ⟨fun env w st fileName contentType folder uuidStr h1 h2 => ?_,
    fun fileName h => (goExt_eq_empty_iff fileName).mpr h,
    fun folder uuidStr fileName h => ?_⟩
  · simp [UploadFile, h1, h2, uploadKey]
  · unfold uploadKey
    rw [(goExt_eq_empty_iff fileName).mpr h]
    simp

/-- C10 witness: uploading "README" (no extension) into "files" with a fixed
uuid draw yields the bare key "files/" + uuid. -/
theorem uploadFile_key_verbatim_witness :
    UploadFile exampleEnv okWorld readyState "README" "text/plain" "files"
      uuidC =
      (Except.ok { S3Key := "files" ++ "/" ++ uuidC ++ goExt "README",
                   OriginalFilename := "README" }, readyState) ∧
    uploadKey "files" uuidC "README" = "files" ++ "/" ++ uuidC :=
  ⟨uploadFile_key_verbatim.1 exampleEnv okWorld readyState "README"
      "text/plain" "files" uuidC rfl rfl,
   uploadFile_key_verbatim.2.2 "files" uuidC "README" (by decide)⟩

/-- C1 counterexample: a successful upload of the extension-less filename
"README" returns a key with no dot at all, so the universally asserted
folder/uuid.ext shape fails for this valid input. -/
theorem uploadFile_shape_cex :
    (UploadFile exampleEnv okWorld readyState "README" "text/plain" "files"
        uuidC).1 =
      Except.ok { S3Key := "files/" ++ uuidC, OriginalFilename := "README" } ∧
    ¬ keyShape "files" ("files/" ++ uuidC) := by
  constructor
  · rfl
  · rintro ⟨u, e, hu, hk⟩
    have hlen := congrArg String.length hk
    have h42 : ("files/" ++ uuidC).length = 42 := by decide
    rw [h42] at hlen
    simp only [String.length_append, hu] at hlen
    have h5 : ("files" : String).length = 5 := by decide
    have h1 : ("/" : String).length = 1 := by decide
    have hd : ("." : String).length = 1 := by decide
    rw [h5, h1, hd] at hlen
    omega

/-- C1 (amended): a successful UploadFile returns the key
folder + "/" + uuid + filepath.Ext(fileName) together with the original
filename unchanged; when the filename has an extension and the generated
identifier is 36 characters long the key has the folder/uuid.ext shape; and
two upload calls whose generated uuid draws differ return distinct keys,
whatever the (possibly identical) remaining inputs. -/
theorem uploadFile_key_spec :
    (∀ env w st fileName contentType folder uuidStr,
      st.clientSet = true → w.upload = Except.ok () →
      (UploadFile env w st fileName contentType folder uuidStr).1 =
        Except.ok { S3Key := uploadKey folder uuidStr fileName,
                    OriginalFilename := fileName }) ∧
    (∀ folder uuidStr fileName, uuidStr.length = 36 → goExt fileName ≠ "" →
      keyShape folder (uploadKey folder uuidStr fileName)) ∧
    (∀ folder fileName uuid1 uuid2, uuid1 ≠ uuid2 →
      uploadKey folder uuid1 fileName ≠ uploadKey folder uuid2 fileName) := by
  refine ⟨fun env w st fileName contentType folder uuidStr h1 h2 => ?_,
    fun folder uuidStr fileName hu he => ?_, fun folder fileName u1 u2 hne => ?_⟩
  · simp [UploadFile, h1, h2, uploadKey]
  · obtain ⟨r, hr⟩ := goExt_shape fileName he
    refine ⟨uuidStr, r, hu, ?_⟩
    unfold uploadKey
    rw [hr]
    simp [String.append_assoc]
  · intro heq
    apply hne
    unfold uploadKey at heq
    have hd := congrArg String.data heq
    simp only [String.data_append] at hd
    have h2 := List.append_cancel_right hd
    have h3 := List.append_cancel_left h2
    exact congrArg String.mk h3

/-- C1 witness: a concrete upload of "photo.jpg" with a 36-character uuid
draw, the uuid.ext shape of its key, and distinctness against a second
draw. -/
theorem uploadFile_key_spec_witness :
    (UploadFile exampleEnv okWorld readyState "photo.jpg" "image/jpeg"
        "images" uuidC).1 =
      Except.ok { S3Key := uploadKey "images" uuidC "photo.jpg",
                  OriginalFilename := "photo.jpg" } ∧
    keyShape "images" (uploadKey "images" uuidC "photo.jpg") ∧
    uploadKey "images" uuidC "photo.jpg" ≠
      uploadKey "images" uuidC2 "photo.jpg" :=
  ⟨uploadFile_key_spec.1 exampleEnv okWorld readyState "photo.jpg"
      "image/jpeg" "images" uuidC rfl rfl,
   uploadFile_key_spec.2.1 "images" uuidC "photo.jpg" (by decide) (by decide),
   uploadFile_key_spec.2.2 "images" "photo.jpg" uuidC uuidC2 (by decide)⟩

/-- C3: the batch conversion equals a filterMap that drops exactly the items
with an empty key, a failed signing call, or a produced URL carrying no
signature parameter, and keeps the rest (in input order) with the presigned
URL stored in both URL fields; on the concrete three-item list with one
empty-key item it returns exactly the other two items in order. -/
theorem convertBranchMedia_spec :
    (∀ (sign : String → Except String String) (mediaList : List BranchMedia),
      ConvertBranchMediaToPresignedURLs sign mediaList =
        mediaList.filterMap (fun media =>
          if media.S3Key = "" then none
          else
            match sign media.S3Key with
            | Except.error _ => none
            | Except.ok url =>
              if containsSub "X-Amz-Signature".toList url.toList ||
                 containsSub "Signature=".toList url.toList then
                some { media with FileURL := url, URL := url }
              else none)) ∧
    ConvertBranchMediaToPresignedURLs exampleSign
      [{ ID := 1, BranchID := 7, S3Key := "images/a.jpg", FileURL := "",
         URL := "" },
       { ID := 2, BranchID := 7, S3Key := "", FileURL := "", URL := "" },
       { ID := 3, BranchID := 7, S3Key := "videos/b.mp4", FileURL := "",
         URL := "" }] =
      [{ ID := 1, BranchID := 7, S3Key := "images/a.jpg",
         FileURL :=
           "https://djjs-bucket.s3.ap-south-1.amazonaws.com/images/a.jpg?X-Amz-Signature=sig",
         URL :=
           "https://djjs-bucket.s3.ap-south-1.amazonaws.com/images/a.jpg?X-Amz-Signature=sig" },
       { ID := 3, BranchID := 7, S3Key := "videos/b.mp4",
         FileURL :=
           "https://djjs-bucket.s3.ap-south-1.amazonaws.com/videos/b.mp4?X-Amz-Signature=sig",
         URL :=
           "https://djjs-bucket.s3.ap-south-1.amazonaws.com/videos/b.mp4?X-Amz-Signature=sig" }] := by
  constructor
  · intro sign mediaList
    induction mediaList with
    | nil => rfl
    | cons m rest ih =>
      simp only [List.filterMap_cons]
      by_cases h0 : m.S3Key = ""
      · simp only [ConvertBranchMediaToPresignedURLs, if_pos h0, h0,
          if_true, eq_self_iff_true]
        exact ih
      · cases hs : sign m.S3Key with
        | error e =>
          simp only [ConvertBranchMediaToPresignedURLs, if_neg h0, hs]
          exact ih
        | ok url =>
          by_cases hc : (containsSub "X-Amz-Signature".toList url.toList ||
              containsSub "Signature=".toList url.toList) = true
          · have hnot : (!containsSub "X-Amz-Signature".toList url.toList &&
                !containsSub "Signature=".toList url.toList) = false := by
              rw [← Bool.not_or, hc]
              rfl
            simp only [ConvertBranchMediaToPresignedURLs, if_neg h0, hs,
              hnot, hc, if_true, Bool.false_eq_true, if_false]
            rw [ih]
          · have hc2 : (containsSub "X-Amz-Signature".toList url.toList ||
                containsSub "Signature=".toList url.toList) = false := by
              simpa using hc
            have hnot : (!containsSub "X-Amz-Signature".toList url.toList &&
                !containsSub "Signature=".toList url.toList) = true := by
              rw [← Bool.not_or, hc2]
              rfl
            simp only [ConvertBranchMediaToPresignedURLs, if_neg h0, hs,
              hnot, hc2, if_true, Bool.false_eq_true, if_false]
            exact ih
  · rfl

/-- C2 counterexample: with a valid environment, matching credentials and
only the PutObject probe failing, InitializeS3 returns the PutObject
permission error, yet the module-level client state is already marked
initialized (clientSet is true), contradicting the asserted
state-unchanged-on-error behavior. -/
theorem initializeS3_state_cex :
    (InitializeS3 exampleEnv putFailWorld initialState).2.clientSet = true ∧
    (InitializeS3 exampleEnv putFailWorld initialState).1 =
      Except.error
        "S3 bucket verification failed: cannot upload to bucket djjs-bucket: denied. Check IAM permissions (s3:PutObject)" :=
  ⟨rfl, rfl⟩

/-- C2 (amended): if the write-permission probe fails during startup
verification, InitializeS3 returns an error naming s3:PutObject — but the
client globals have already been assigned before verification, so the
returned state is marked initialized and the nil-check lazy-init path in a
subsequent UploadFile does not retry initialization: it proceeds straight to
the upload. -/
theorem initializeS3_verifyFail_spec :
    ∀ (env : Env) (w : World) (st : S3State) (src e : String),
      env.accessKeyID ≠ "" → env.secretAccessKey ≠ "" →
      env.bucketName ≠ "" → env.region ≠ "" →
      w.loadConfig = Except.ok () →
      w.retrieve = Except.ok { accessKeyID := env.accessKeyID, source := src } →
      w.headBucket = Except.ok () → w.listObjects = Except.ok () →
      w.presignProbe = Except.ok () → w.putObject = Except.error e →
      (InitializeS3 env w st).1 =
        Except.error ("S3 bucket verification failed: " ++
          ("cannot upload to bucket " ++ env.bucketName ++ ": " ++ e ++
           ". Check IAM permissions (s3:PutObject)")) ∧
      (InitializeS3 env w st).2 =
        { clientSet := true, uploaderSet := true,
          bucketName := env.bucketName, region := env.region } ∧
      (∀ (env2 : Env) (w2 : World) (fileName ct folder uuidStr : String),
        w2.upload = Except.ok () →
        (UploadFile env2 w2 (InitializeS3 env w st).2 fileName ct folder
            uuidStr).1 =
          Except.ok { S3Key := uploadKey folder uuidStr fileName,
                      OriginalFilename := fileName }) := by
  intro env w st src e h1 h2 h3 h4 hload hretr hhb hlo hpp hpo
  have hmain : InitializeS3 env w st =
      (Except.error ("S3 bucket verification failed: " ++
        ("cannot upload to bucket " ++ env.bucketName ++ ": " ++ e ++
         ". Check IAM permissions (s3:PutObject)")),
       { clientSet := true, uploaderSet := true,
         bucketName := env.bucketName, region := env.region }) := by
    simp [InitializeS3, VerifyS3Connection, h1, h2, h3, h4, hload, hretr,
      hhb, hlo, hpp, hpo]
  refine ⟨by rw [hmain], by rw [hmain], ?_⟩
  intro env2 w2 fileName ct folder uuidStr hup
  rw [hmain]
  simp [UploadFile, hup, uploadKey]

/-- C2 witness: the amended theorem instantiated at the concrete fixture
with a failing PutObject probe. -/
theorem initializeS3_verifyFail_spec_witness :
    (InitializeS3 exampleEnv putFailWorld initialState).1 =
      Except.error ("S3 bucket verification failed: " ++
        ("cannot upload to bucket " ++ exampleEnv.bucketName ++ ": " ++
         "denied" ++ ". Check IAM permissions (s3:PutObject)")) ∧
    (InitializeS3 exampleEnv putFailWorld initialState).2 =
      { clientSet := true, uploaderSet := true,
        bucketName := exampleEnv.bucketName, region := exampleEnv.region } :=
  ⟨(initializeS3_verifyFail_spec exampleEnv putFailWorld initialState
      "StaticCredentials" "denied" (by decide) (by decide) (by decide)
      (by decide) rfl rfl rfl rfl rfl rfl).1,
   (initializeS3_verifyFail_spec exampleEnv putFailWorld initialState
      "StaticCredentials" "denied" (by decide) (by decide) (by decide)
      (by decide) rfl rfl rfl rfl rfl rfl).2.1⟩

/-- C7: after building the client configuration, InitializeS3 compares the
resolved access-key identifier with the configured one: a mismatch aborts
with the credentials-mismatch error and leaves the state untouched, while a
matching identifier that lacks the long-lived "AKIA" prefix only warns —
initialization proceeds and, when the verification probes succeed, completes
successfully with the client state set. -/
theorem initializeS3_credential_check :
    (∀ (env : Env) (w : World) (st : S3State) (creds : Creds),
      env.accessKeyID ≠ "" → env.secretAccessKey ≠ "" →
      env.bucketName ≠ "" → env.region ≠ "" →
      w.loadConfig = Except.ok () → w.retrieve = Except.ok creds →
      creds.accessKeyID ≠ env.accessKeyID →
      InitializeS3 env w st =
        (Except.error ("credentials mismatch: SDK is using " ++
          maskKey creds.accessKeyID ++ " instead of " ++
          maskKey env.accessKeyID ++ " from .env"), st)) ∧
    (∀ (env : Env) (w : World) (st : S3State) (creds : Creds),
      env.accessKeyID ≠ "" → env.secretAccessKey ≠ "" →
      env.bucketName ≠ "" → env.region ≠ "" →
      w.loadConfig = Except.ok () → w.retrieve = Except.ok creds →
      creds.accessKeyID = env.accessKeyID →
      goHasPrefix creds.accessKeyID "AKIA" = false →
      w.headBucket = Except.ok () → w.listObjects = Except.ok () →
      w.presignProbe = Except.ok () → w.putObject = Except.ok () →
      InitializeS3 env w st =
        (Except.ok (), { clientSet := true, uploaderSet := true,
                         bucketName := env.bucketName,
                         region := env.region })) := by
  constructor
  · intro env w st creds h1 h2 h3 h4 hload hretr hne
    simp [InitializeS3, h1, h2, h3, h4, hload, hretr, hne]
  · intro env w st creds h1 h2 h3 h4 hload hretr heq _hakia hhb hlo hpp hpo
    simp [InitializeS3, VerifyS3Connection, h1, h2, h3, h4, hload, hretr,
      heq, hhb, hlo, hpp, hpo]

/-- C7 witness: the mismatch case aborts without touching the state, and an
explicitly configured temporary (non-AKIA) key that matches initializes
successfully. -/
theorem initializeS3_credential_check_witness :
    InitializeS3 exampleEnv mismatchWorld initialState =
      (Except.error ("credentials mismatch: SDK is using " ++
        maskKey "AKIAOTHERKEY99" ++ " instead of " ++
        maskKey exampleEnv.accessKeyID ++ " from .env"), initialState) ∧
    InitializeS3 asiaEnv asiaWorld initialState =
      (Except.ok (), { clientSet := true, uploaderSet := true,
                       bucketName := asiaEnv.bucketName,
                       region := asiaEnv.region }) :=
  ⟨initializeS3_credential_check.1 exampleEnv mismatchWorld initialState
      { accessKeyID := "AKIAOTHERKEY99", source := "EnvProvider" }
      (by decide) (by decide) (by decide) (by decide) rfl rfl (by decide),
   initializeS3_credential_check.2 asiaEnv asiaWorld initialState
      { accessKeyID := "ASIATEMPKEY1234", source := "StaticCredentials" }
      (by decide) (by decide) (by decide) (by decide) rfl rfl (by decide)
      (by decide) rfl rfl rfl rfl⟩

/-- C8: with an initialized client, GetPresignedURL on an empty key returns
the invalid-argument error without consulting the signing call (the result
holds for every world); on a non-empty key the HeadObject probe outcome is
irrelevant and the result is decided by the signing call alone — success
returns its URL, failure returns the error naming bucket and key. -/
theorem getPresignedURL_spec :
    (∀ (env : Env) (w : World) (st : S3State) (expiration : Nat),
      st.clientSet = true →
      GetPresignedURL env w st "" expiration =
        (Except.error "S3 key cannot be empty", st)) ∧
    (∀ (env : Env) (w : World) (st : S3State) (key : String)
        (expiration : Nat) (url : String),
      st.clientSet = true → key ≠ "" → w.presignGet = Except.ok url →
      GetPresignedURL env w st key expiration = (Except.ok url, st)) ∧
    (∀ (env : Env) (w : World) (st : S3State) (key : String)
        (expiration : Nat) (msg : String),
      st.clientSet = true → key ≠ "" → w.presignGet = Except.error msg →
      GetPresignedURL env w st key expiration =
        (Except.error ("failed to generate presigned URL (bucket: " ++
          st.bucketName ++ ", key: " ++ key ++ "): " ++ msg ++
          ". Check AWS IAM permissions for s3:GetObject"), st)) := by
  refine ⟨fun env w st expiration h1 => ?_,
    fun env w st key expiration url h1 h2 h3 => ?_,
    fun env w st key expiration msg h1 h2 h3 => ?_⟩
  · simp [GetPresignedURL, h1]
  · simp [GetPresignedURL, h1, h2, h3]
  · simp [GetPresignedURL, h1, h2, h3]

/-- C8 witness: the empty-key rejection, and a successful signing in a world
whose HeadObject probe fails (the failure is swallowed). -/
theorem getPresignedURL_spec_witness :
    GetPresignedURL exampleEnv okWorld readyState "" 900 =
      (Except.error "S3 key cannot be empty", readyState) ∧
    GetPresignedURL exampleEnv headFailWorld readyState "images/a.jpg" 900 =
      (Except.ok
        "https://djjs-bucket.s3.ap-south-1.amazonaws.com/k?X-Amz-Signature=abc",
       readyState) :=
  ⟨getPresignedURL_spec.1 exampleEnv okWorld readyState 900 rfl,
   getPresignedURL_spec.2.1 exampleEnv headFailWorld readyState "images/a.jpg"
      900 _ rfl (by decide) rfl⟩

/-- C9 counterexample: the claim's conditions (bucket and region free of
".amazonaws.com/", key free of percent and plus) admit inputs on which the
round trip fails: a key containing a question mark is truncated at the query
strip, a key containing ".amazonaws.com/" is cut at its first occurrence,
and a region containing a slash (while itself free of the separator
substring) misplaces the split. -/
theorem getS3KeyFromURL_cex :
    (containsSub amazonSep "b".toList = false ∧
     containsSub amazonSep "r".toList = false) ∧
    ('%' ∉ "a?b".toList ∧ '+' ∉ "a?b".toList ∧
      GetS3KeyFromURL "b" (legacyURL "b" "r" "a?b") = "a" ∧
      ("a" : String) ≠ "a?b") ∧
    ('%' ∉ "x.amazonaws.com/y".toList ∧ '+' ∉ "x.amazonaws.com/y".toList ∧
      GetS3KeyFromURL "b" (legacyURL "b" "r" "x.amazonaws.com/y") = "x" ∧
      ("x" : String) ≠ "x.amazonaws.com/y") ∧
    (containsSub amazonSep "amazonaws.com/x".toList = false ∧
      GetS3KeyFromURL "b" (legacyURL "b" "amazonaws.com/x" "key") = "x" ∧
      ("x" : String) ≠ "key") := by
  refine ⟨⟨by decide, by decide⟩,
    ⟨by decide, by decide, by decide, by decide⟩,
    ⟨by decide, by decide, by decide, by decide⟩,
    ⟨by decide, by decide, by decide⟩⟩

/-- C9 (amended): for every bucket and region containing neither a slash nor
a question mark, and every key containing none of percent, plus and question
mark and not containing ".amazonaws.com/", GetS3KeyFromURL applied to the
legacy URL UploadFileLegacy builds returns exactly that key; the same holds
with a query string appended after a question mark (the strip removes it);
and a URL containing neither ".amazonaws.com/" nor "/bucket/" nor a question
mark yields the empty string. -/
theorem getS3KeyFromURL_roundTrip :
    (∀ bucket region key : String,
      '/' ∉ bucket.toList → '?' ∉ bucket.toList →
      '/' ∉ region.toList → '?' ∉ region.toList →
      '%' ∉ key.toList → '+' ∉ key.toList → '?' ∉ key.toList →
      containsSub amazonSep key.toList = false →
      GetS3KeyFromURL bucket (legacyURL bucket region key) = key) ∧
    (∀ bucket region key query : String,
      '/' ∉ bucket.toList → '?' ∉ bucket.toList →
      '/' ∉ region.toList → '?' ∉ region.toList →
      '%' ∉ key.toList → '+' ∉ key.toList → '?' ∉ key.toList →
      containsSub amazonSep key.toList = false →
      GetS3KeyFromURL bucket
        (legacyURL bucket region key ++ "?" ++ query) = key) ∧
    (∀ bucket url : String,
      containsSub ['?'] url.toList = false →
      containsSub amazonSep url.toList = false →
      containsSub ('/' :: bucket.toList ++ ['/']) url.toList = false →
      GetS3KeyFromURL bucket url = "") := by
  have hnq : ∀ bucket region key : String,
      '?' ∉ bucket.toList → '?' ∉ region.toList → '?' ∉ key.toList →
      '?' ∉ (legacyURL bucket region key).toList := by
    intro bucket region key hbq hrq hkq hmem
    rw [legacy_toList] at hmem
    rcases List.mem_append.mp hmem with h1 | h2
    · rcases List.mem_append.mp h1 with h3 | h4
      · rcases List.mem_append.mp h3 with h5 | h6
        · rcases List.mem_append.mp h5 with h7 | h8
          · exact absurd h7 (by decide)
          · exact hbq h8
        · exact absurd h6 (by decide)
      · exact hrq h4
    · rcases List.mem_append.mp h2 with h5 | h6
      · exact absurd h5 (by decide)
      · exact hkq h6
  refine ⟨?_, ?_, ?_⟩
  · intro bucket region key hb hbq hr hrq hk1 hk2 hkq hksep
    show extractKey bucket (stripQuery (legacyURL bucket region key).toList)
      = key
    rw [stripQuery_of_no_q (hnq bucket region key hbq hrq hkq), legacy_toList]
    exact extractKey_legacy bucket region key hb hr hk1 hk2 hksep
  · intro bucket region key query hb hbq hr hrq hk1 hk2 hkq hksep
    show extractKey bucket
        (stripQuery (legacyURL bucket region key ++ "?" ++ query).toList)
      = key
    have hdata : (legacyURL bucket region key ++ "?" ++ query).toList =
        (legacyURL bucket region key).toList ++ ('?' :: query.toList) := by
      simp [String.toList, String.data_append, List.append_assoc]
    rw [hdata, stripQuery_append_q (hnq bucket region key hbq hrq hkq),
      legacy_toList]
    exact extractKey_legacy bucket region key hb hr hk1 hk2 hksep
  · intro bucket url hq hsep hbsep
    show extractKey bucket (stripQuery url.toList) = ""
    have hq2 : containsSub ['?'] url.data = false := hq
    have hbsep2 : containsSub ('/' :: (bucket.data ++ ['/'])) url.data =
        false := hbsep
    have hstrip : stripQuery url.toList = url.toList := by
      simp [stripQuery, hq2]
    rw [hstrip]
    simp only [extractKey]
    rw [splitOnL_of_none (by decide) (findSub_none_of_contains_false hsep)]
    rw [if_neg (by simp)]
    rw [if_neg (by simp [hbsep2])]

/-- C9 witness: the round trip, the query-strip variant and the
unmatched-URL fallback at concrete inputs. -/
theorem getS3KeyFromURL_roundTrip_witness :
    GetS3KeyFromURL "djjs-bucket"
      (legacyURL "djjs-bucket" "ap-south-1" "images/abc-123.jpg") =
      "images/abc-123.jpg" ∧
    GetS3KeyFromURL "djjs-bucket"
      (legacyURL "djjs-bucket" "ap-south-1" "images/abc-123.jpg" ++ "?" ++
        "X-Amz-Signature=s") = "images/abc-123.jpg" ∧
    GetS3KeyFromURL "djjs-bucket" "https://example.com/other" = "" :=
  ⟨getS3KeyFromURL_roundTrip.1 "djjs-bucket" "ap-south-1" "images/abc-123.jpg"
      (by decide) (by decide) (by decide) (by decide) (by decide) (by decide)
      (by decide) (by decide),
   getS3KeyFromURL_roundTrip.2.1 "djjs-bucket" "ap-south-1"
      "images/abc-123.jpg" "X-Amz-Signature=s"
      (by decide) (by decide) (by decide) (by decide) (by decide) (by decide)
      (by decide) (by decide),
   getS3KeyFromURL_roundTrip.2.2 "djjs-bucket" "https://example.com/other"
      (by decide) (by decide) (by decide)⟩

end S3

